import Mathlib

/-!
# travel-list: the storage access layer (`travel-list/repository.go`)

The repository methods of `DBRepository` are embedded as pure functions that
pass the collection handle explicitly.  The MongoDB driver the methods call
(`primitive.ObjectIDFromHex`, `ObjectID.Hex`, `Collection.Find`, `FindOne`,
`InsertOne`, `ReplaceOne`, `DeleteOne`) is an external library; it is modelled
here by its documented behaviour on a collection held as a list of BSON
documents in natural order.  Two things the environment decides are arguments
of the embedded methods: the value `primitive.NewObjectID()` returns (the
generator itself is `NewObjectID` below), and whether the round trip of a
driver call meets a transport fault.
-/

namespace TravelList

/-! ## `primitive.ObjectID` and its hexadecimal form -/

/-- ObjectID is the driver's `type ObjectID [12]byte`. -/
def ObjectID := { b : List (Fin 256) // b.length = 12 }

instance : DecidableEq ObjectID := by unfold ObjectID; infer_instance

/-- NilObjectID is the zero value of `ObjectID`. -/
def NilObjectID : ObjectID := ⟨List.replicate 12 0, by decide⟩

/-- Errors the repository methods can return.  The spec's `InvalidIdError` is
`ErrInvalidHex`, its `NotFoundError` is `ErrNoDocuments`, and every other
constructor is a `StorageError`. -/
inductive Error where
  /-- any failure of `primitive.ObjectIDFromHex`: the decode error of
  `encoding/hex` or `primitive.ErrInvalidHex` -/
  | ErrInvalidHex
  /-- the driver's `mongo.ErrNoDocuments` -/
  | ErrNoDocuments
  /-- the driver's "replacement document cannot contain keys beginning with '$'" -/
  | dollarKey
  /-- the server's duplicate key error (E11000) on the unique `_id` index -/
  | duplicateKey
  /-- the server's refusal to change the immutable field `_id` -/
  | immutableID
  /-- a document that does not decode into the destination struct -/
  | decode
  /-- a transport fault (unreachable server, deadline exceeded) -/
  | transport (msg : String)
  deriving DecidableEq, Repr

/-- The table `hextable = "0123456789abcdef"` of `encoding/hex`, indexed. -/
def hextable (n : Nat) : Char := "0123456789abcdef".toList.getD n '0'

/-- Go `hex.fromHexChar`: the value of one hexadecimal digit, either case. -/
def fromHexChar (c : Char) : Option Nat :=
  if '0'.toNat ≤ c.toNat ∧ c.toNat ≤ '9'.toNat then some (c.toNat - '0'.toNat)
  else if 'a'.toNat ≤ c.toNat ∧ c.toNat ≤ 'f'.toNat then some (c.toNat - 'a'.toNat + 10)
  else if 'A'.toNat ≤ c.toNat ∧ c.toNat ≤ 'F'.toNat then some (c.toNat - 'A'.toNat + 10)
  else none

/-- Go `hex.DecodeString`: two digits per byte; `none` stands for its errors
(`InvalidByteError`, `ErrLength`). -/
def hexDecode : List Char → Option (List (Fin 256))
  | [] => some []
  | [_] => none
  | a :: b :: rest =>
    match fromHexChar a, fromHexChar b with
    | some x, some y =>
      match hexDecode rest with
      | some bs => some (Fin.ofNat (x * 16 + y) :: bs)
      | none => none
    | _, _ => none

/-- Go `hex.EncodeToString`: `hextable[v>>4]`, `hextable[v&0x0f]` for every byte. -/
def hexEncode : List (Fin 256) → List Char
  | [] => []
  | v :: rest => hextable (v.val / 16) :: hextable (v.val % 16) :: hexEncode rest

/-- The method `ObjectID.Hex`: the 24-digit lower-case form of an id. -/
def ObjectID.Hex (id : ObjectID) : String := String.mk (hexEncode id.val)

/-- The driver's `primitive.ObjectIDFromHex`: decode the string, then require
twelve bytes.  As in Go both results are returned: on failure the id is
`NilObjectID` and the error is set. -/
def ObjectIDFromHex (s : String) : ObjectID × Option Error :=
  match hexDecode s.toList with
  | none => (NilObjectID, some Error.ErrInvalidHex)
  | some b =>
    if h : b.length = 12 then (⟨b, h⟩, none)
    else (NilObjectID, some Error.ErrInvalidHex)

/-! ## `primitive.NewObjectID` -/

/-- BSON values, as far as this repository builds or stores them. -/
inductive Value where
  | null
  | bool (b : Bool)
  | int (i : Int)
  | str (s : String)
  | objectID (id : ObjectID)
  | document (d : List (String × Value))

/-- The driver's `bson.D`: an ordered document. -/
abbrev D := List (String × Value)

/-- Modelled from the spec: the declaration of the struct `Travel` is not among
the sources.  Section 3 of the spec gives it an `id` (the field `ObjectID`
that `insertOne` and `updateOne` assign, stored under the key `_id` that
`findOne` filters on) and a set of free-form domain fields persisted verbatim. -/
structure Travel where
  ObjectID : TravelList.ObjectID
  fields : D

/-- Modelled from the spec: `Travels` is the ordered sequence of `Travel`
records (its declaration is not among the sources). -/
abbrev Travels := List Travel

/-- The BSON form of a `Travel`: the `_id` element, then the domain fields. -/
def Travel.marshal (t : Travel) : D := ("_id", Value.objectID t.ObjectID) :: t.fields

/-- The id of a stored document when its `_id` element is an ObjectID. -/
def oidOf (d : D) : Option ObjectID :=
  match d.lookup "_id" with
  | some (Value.objectID id) => some id
  | _ => none

/-- The filter `bson.M{"_id": filter}` applied to one document. -/
def matchesID (filter : ObjectID) (d : D) : Bool := decide (oidOf d = some filter)

/-- Decoding a stored document into a `Travel` (`Cursor.Decode`,
`SingleResult.Decode`): the `_id` element fills `ObjectID` (the zero value when
the element is absent, a decode error when it is not an ObjectID), the other
elements are the domain fields. -/
def Decode (d : D) : Except Error Travel :=
  match d.lookup "_id" with
  | none => Except.ok ⟨NilObjectID, d⟩
  | some (Value.objectID id) => Except.ok ⟨id, d.eraseP (fun kv => kv.1 == "_id")⟩
  | some _ => Except.error Error.decode

/-! ## The driver's collection handle -/

/-- The commands a driver call sends to the server. -/
inductive Command where
  | find
  | insert
  | update
  | delete
  deriving DecidableEq, Repr

/-- The state behind `*mongo.Collection`: the stored documents in natural
order, and the log of the commands sent to the server so far. -/
structure Collection where
  docs : List D
  wire : List Command

/-- The collection after one more command has been sent. -/
def Collection.sent (col : Collection) (c : Command) : Collection :=
  { col with wire := col.wire ++ [c] }

/-- The driver's `*mongo.Cursor`: the documents still to be read. -/
structure Cursor where
  batch : List D

/-- The driver's `*mongo.SingleResult`: the document found, or the error that
`Decode` will report. -/
abbrev SingleResult := Except Error D

/-- The driver's `*mongo.UpdateResult`. -/
structure UpdateResult where
  MatchedCount : Nat

/-- The driver's `*mongo.DeleteResult`. -/
structure DeleteResult where
  DeletedCount : Nat

/-- The driver's `Collection.Find` with the empty filter `bson.D{}`: a
cursor over every document. -/
def Collection.Find (col : Collection) (fault : Option String) :
    Except Error Cursor × Collection :=
  match fault with
  | some msg => (Except.error (Error.transport msg), col.sent Command.find)
  | none => (Except.ok ⟨col.docs⟩, col.sent Command.find)

/-- The driver's `Cursor.Close`. -/
def Cursor.Close (_c : Cursor) (fault : Option String) : Option Error :=
  match fault with
  | some msg => some (Error.transport msg)
  | none => none

/-- The driver's `Collection.FindOne` with an `_id` filter: the first matching
document, `ErrNoDocuments` when there is none. -/
def Collection.FindOne (col : Collection) (fault : Option String) (filter : ObjectID) :
    SingleResult × Collection :=
  match fault with
  | some msg => (Except.error (Error.transport msg), col.sent Command.find)
  | none =>
    match col.docs.find? (matchesID filter) with
    | some d => (Except.ok d, col.sent Command.find)
    | none => (Except.error Error.ErrNoDocuments, col.sent Command.find)

/-- The driver's `SingleResult.Decode` into a `Travel`. -/
def SingleResult.Decode (res : SingleResult) : Except Error Travel :=
  match res with
  | Except.error e => Except.error e
  | Except.ok d => TravelList.Decode d

/-- The driver's `Collection.InsertOne`, at the one type this repository
inserts (`*Travel`, whose BSON form always carries `_id`): the document is
appended unless its `_id` is already present, which the unique `_id` index
refuses. -/
def Collection.InsertOne (col : Collection) (fault : Option String) (document : Travel) :
    Option Error × Collection :=
  match fault with
  | some msg => (some (Error.transport msg), col.sent Command.insert)
  | none =>
    if col.docs.any (matchesID document.ObjectID) then
      (some Error.duplicateKey, col.sent Command.insert)
    else
      (none, { docs := col.docs ++ [document.marshal], wire := col.wire ++ [Command.insert] })

/-- The driver's `ensureNoDollarKey`: the first key of a replacement document
must not begin with `$`. -/
def hasDollarKey (replacement : D) : Bool :=
  match replacement with
  | (k, _) :: _ =>
    match k.toList with
    | c :: _ => c == '$'
    | [] => false
  | [] => false

/-- Replacing the first document that satisfies `p`. -/
def replaceFirst (p : D → Bool) (new : D) : List D → List D
  | [] => []
  | d :: ds => if p d then new :: ds else d :: replaceFirst p new ds

/-- The driver's `Collection.ReplaceOne` with an `_id` filter and no upsert.
A replacement whose first key begins with `$` is refused by the driver before
anything is sent.  Otherwise the first matching document is replaced whole; a
replacement without `_id` keeps the matched id, one with another `_id` is
refused by the server; with no match nothing changes and no error is reported
(`MatchedCount` is 0). -/
def Collection.ReplaceOne (col : Collection) (fault : Option String) (filter : ObjectID)
    (replacement : D) : Except Error UpdateResult × Collection :=
  if hasDollarKey replacement then (Except.error Error.dollarKey, col)
  else
    match fault with
    | some msg => (Except.error (Error.transport msg), col.sent Command.update)
    | none =>
      if col.docs.any (matchesID filter) then
        match replacement.lookup "_id" with
        | none =>
          (Except.ok ⟨1⟩,
            { docs := replaceFirst (matchesID filter)
                (("_id", Value.objectID filter) :: replacement) col.docs,
              wire := col.wire ++ [Command.update] })
        | some (Value.objectID id) =>
          if id = filter then
            (Except.ok ⟨1⟩,
              { docs := replaceFirst (matchesID filter) replacement col.docs,
                wire := col.wire ++ [Command.update] })
          else (Except.error Error.immutableID, col.sent Command.update)
        | some _ => (Except.error Error.immutableID, col.sent Command.update)
      else (Except.ok ⟨0⟩, col.sent Command.update)

/-- The driver's `Collection.DeleteOne` with an `_id` filter: the first
matching document is removed; with no match nothing changes and no error is
reported (`DeletedCount` is 0). -/
def Collection.DeleteOne (col : Collection) (fault : Option String) (filter : ObjectID) :
    Except Error DeleteResult × Collection :=
  match fault with
  | some msg => (Except.error (Error.transport msg), col.sent Command.delete)
  | none =>
    (Except.ok ⟨if col.docs.any (matchesID filter) then 1 else 0⟩,
      { docs := col.docs.eraseP (matchesID filter), wire := col.wire ++ [Command.delete] })

/-! ## `DBRepository` (`travel-list/repository.go`) -/

/-- The struct `DBRepository`; of its handles only `col` carries state. -/
structure DBRepository where
  col : Collection

/-- The loop of `findAll`: decode the next document of the cursor and append
it, stopping at the first decode error. -/
def findAll.loop : List D → Travels → Except Error Travels
  | [], travels => Except.ok travels
  | doc :: rest, travels =>
    match Decode doc with
    | Except.error err => Except.error err
    | Except.ok travel => findAll.loop rest (travels ++ [travel])

/-- The method `findAll`: `Find` with the empty filter, decode every document of
the cursor in order, close the cursor.  `findFault` and `closeFault` are the
transport outcomes of `Find` and of `Close`. -/
def findAll (d : DBRepository) (findFault closeFault : Option String) :
    Except Error Travels × DBRepository :=
  match d.col.Find findFault with
  | (Except.error err, col) => (Except.error err, { d with col := col })
  | (Except.ok c, col) =>
    match findAll.loop c.batch [] with
    | Except.error err => (Except.error err, { d with col := col })
    | Except.ok travels =>
      match c.Close closeFault with
      | some err => (Except.error err, { d with col := col })
      | none => (Except.ok travels, { d with col := col })

/-- The method `findOne`: parse the id and return the parse error before any
driver call; otherwise `FindOne` by `_id` and decode. -/
def findOne (d : DBRepository) (fault : Option String) (id : String) :
    Except Error Travel × DBRepository :=
  match ObjectIDFromHex id with
  | (_, some err) => (Except.error err, d)
  | (objectId, none) =>
    match d.col.FindOne fault objectId with
    | (res, col) =>
      match res.Decode with
      | Except.error err => (Except.error err, { d with col := col })
      | Except.ok travel => (Except.ok travel, { d with col := col })

/-- The method `insertOne`: overwrite `travel.ObjectID` with the value of
`primitive.NewObjectID()` (the argument `newObjectID`), then `InsertOne`.  The
second component is the caller's `*travel` after the call. -/
def insertOne (d : DBRepository) (newObjectID : ObjectID) (fault : Option String)
    (travel : Travel) : Option Error × Travel × DBRepository :=
  let travel := { travel with ObjectID := newObjectID }
  match d.col.InsertOne fault travel with
  | (some err, col) => (some err, travel, { d with col := col })
  | (none, col) => (none, travel, { d with col := col })

/-- The method `updateOne`: `travel.ObjectID, _ = primitive.ObjectIDFromHex(id)`
(the parse error is discarded), then `ReplaceOne` filtered on that id with the
whole record; the `UpdateResult` is discarded. -/
def updateOne (d : DBRepository) (fault : Option String) (id : String) (travel : Travel) :
    Option Error × Travel × DBRepository :=
  let travel := { travel with ObjectID := (ObjectIDFromHex id).1 }
  let filter := travel.ObjectID
  match d.col.ReplaceOne fault filter travel.marshal with
  | (Except.error err, col) => (some err, travel, { d with col := col })
  | (Except.ok _, col) => (none, travel, { d with col := col })

/-- The method `updateField`: `objectID, _ := primitive.ObjectIDFromHex(id)`
(the parse error is discarded), then `ReplaceOne` filtered on that id with the
document `bson.D{{"$set", bson.D{{field, value}}}}`. -/
def updateField (d : DBRepository) (fault : Option String) (id field : String)
    (value : Value) : Option Error × DBRepository :=
  let objectID := (ObjectIDFromHex id).1
  let filter := objectID
  let update : D := [("$set", Value.document [(field, value)])]
  match d.col.ReplaceOne fault filter update with
  | (Except.error err, col) => (some err, { d with col := col })
  | (Except.ok _, col) => (none, { d with col := col })

/-- The method `deleteOne`: parse the id and return the parse error before any
driver call; otherwise `DeleteOne` by `_id`; the `DeleteResult` is discarded. -/
def deleteOne (d : DBRepository) (fault : Option String) (id : String) :
    Option Error × DBRepository :=
  match ObjectIDFromHex id with
  | (_, some err) => (some err, d)
  | (objectId, none) =>
    match d.col.DeleteOne fault objectId with
    | (Except.error err, col) => (some err, { d with col := col })
    | (Except.ok _, col) => (none, { d with col := col })

/-! ## Properties of states and identifiers used in the statements -/

/-- The invariant the unique `_id` index of the store maintains: no two stored
documents carry the same ObjectID. -/
def UniqueIDs (col : Collection) : Prop := (col.docs.filterMap oidOf).Nodup

instance (col : Collection) : Decidable (UniqueIDs col) := by
  unfold UniqueIDs; infer_instance

/-- A record with the given id is in the collection. -/
def Collection.hasID (col : Collection) (id : ObjectID) : Bool := col.docs.any (matchesID id)

/-- One hexadecimal digit of either case. -/
def isHexDigit (c : Char) : Bool := (fromHexChar c).isSome

/-- A well-formed storage identifier in the words of the spec: the fixed width
of 24 characters, every one a hexadecimal digit. -/
def wellFormedID (s : String) : Bool := s.toList.length == 24 && s.toList.all isHexDigit

/-! ## Example data: the scenario of section 8 of the spec -/

/-- An example id `A`. -/
def oidA : ObjectID :=
  ⟨[0x5f, 0x1a, 0x2b, 0x3c, 0x4d, 0x5e, 0x6f, 0x70, 0x81, 0x92, 0xa3, 0xb4], by decide⟩

/-- A second example id. -/
def oidB : ObjectID :=
  ⟨[0x60, 0x00, 0x00, 0x00, 0x00, 0x00, 0x00, 0x00, 0x00, 0x00, 0x00, 0x01], by decide⟩

/-- The record `{destination: "Lima"}` as a caller sends it (zero id). -/
def lima : Travel := ⟨NilObjectID, [("destination", Value.str "Lima")]⟩

/-- The record `{destination: "Cusco"}` as a caller sends it (zero id). -/
def cusco : Travel := ⟨NilObjectID, [("destination", Value.str "Cusco")]⟩

/-- A repository over the empty collection. -/
def emptyRepo : DBRepository := ⟨⟨[], []⟩⟩

/-- A repository whose collection holds Lima under id `A`. -/
def limaRepo : DBRepository := ⟨⟨[Travel.marshal ⟨oidA, lima.fields⟩], []⟩⟩

/-- A repository whose collection holds Lima under `A` and Cusco under the
second id. -/
def twoRepo : DBRepository :=
  ⟨⟨[Travel.marshal ⟨oidA, lima.fields⟩, Travel.marshal ⟨oidB, cusco.fields⟩], []⟩⟩

/-- A repository whose collection holds Lima under the zero id. -/
def nilRepo : DBRepository := ⟨⟨[Travel.marshal ⟨NilObjectID, lima.fields⟩], []⟩⟩

theorem fromHexChar_hextable (n : Nat) (h : n < 16) : fromHexChar (hextable n) = some n := by
  have key : ∀ m : Fin 16, fromHexChar (hextable m.val) = some m.val := by decide
  exact key ⟨n, h⟩

theorem hexDecode_hexEncode (bs : List (Fin 256)) : hexDecode (hexEncode bs) = some bs := by
  induction bs with
  | nil => rfl
  | cons v rest ih =>
    have h1 : v.val / 16 < 16 := by have := v.isLt; omega
    have h2 : v.val % 16 < 16 := by omega
    have h3 : (Fin.ofNat (v.val / 16 * 16 + v.val % 16) : Fin 256) = v := by
      apply Fin.ext
      simp only [Fin.ofNat, Fin.val_mk]
      have := v.isLt
      omega
    simp only [hexEncode, hexDecode, fromHexChar_hextable _ h1, fromHexChar_hextable _ h2, ih, h3]

theorem ObjectIDFromHex_Hex (id : ObjectID) : ObjectIDFromHex id.Hex = (id, none) := by
  obtain ⟨b, hb⟩ := id
  simp only [ObjectIDFromHex, ObjectID.Hex, String.toList, hexDecode_hexEncode, hb, dite_true]

theorem hexDecode_length (cs : List Char) (bs : List (Fin 256)) (h : hexDecode cs = some bs) :
    cs.length = 2 * bs.length ∧ cs.all isHexDigit = true := by
  induction cs using hexDecode.induct generalizing bs with
  | case1 => simp [hexDecode] at h; subst h; simp
  | case2 c => simp [hexDecode] at h
  | case3 a b rest x y ha hb bs0 hr ih =>
    simp only [hexDecode, ha, hb, hr, Option.some.injEq] at h
    subst h
    have := ih bs0 hr
    simp [isHexDigit, ha, hb, this.2, this.1]
    omega
  | case4 a b rest x y ha hb hr ih =>
    simp [hexDecode, ha, hb, hr] at h
  | case5 a b rest hne =>
    exfalso
    cases hx : fromHexChar a <;> cases hy : fromHexChar b <;>
      simp only [hexDecode, hx, hy] at h <;> first | exact Option.noConfusion h | exact hne _ _ hx hy

theorem hexDecode_of_wellFormed (cs : List Char) (hlen : cs.length % 2 = 0)
    (hall : cs.all isHexDigit = true) : ∃ bs, hexDecode cs = some bs := by
  induction cs using hexDecode.induct with
  | case1 => exact ⟨[], rfl⟩
  | case2 c => simp at hlen
  | case3 a b rest x y ha hb bs0 hr ih =>
    exact ⟨Fin.ofNat (x * 16 + y) :: bs0, by simp only [hexDecode, ha, hb, hr]⟩
  | case4 a b rest x y ha hb hr ih =>
    exfalso
    simp only [List.all_cons, Bool.and_eq_true] at hall
    have := ih (by simp at hlen; omega) hall.2.2
    simp [hr] at this
  | case5 a b rest hne =>
    exfalso
    simp only [List.all_cons, Bool.and_eq_true, isHexDigit, Option.isSome_iff_exists] at hall
    obtain ⟨⟨x, hx⟩, ⟨y, hy⟩, _⟩ := hall
    exact hne x y hx hy

theorem ObjectIDFromHex_cases (s : String) :
    (∃ b h, hexDecode s.toList = some b ∧ ObjectIDFromHex s = (⟨b, h⟩, none)) ∨
      ((∀ b, hexDecode s.toList = some b → b.length ≠ 12) ∧
        ObjectIDFromHex s = (NilObjectID, some Error.ErrInvalidHex)) := by
  unfold ObjectIDFromHex
  generalize s.toList = cs
  cases hd : hexDecode cs with
  | none => exact Or.inr ⟨fun b hb => (by cases hb), rfl⟩
  | some b =>
    by_cases hb : b.length = 12
    · exact Or.inl ⟨b, hb, rfl, by simp only [hb, dite_true]⟩
    · refine Or.inr ⟨fun b0 hb0 => ?_, by simp only [hb, dite_false]⟩
      cases hb0
      exact hb

theorem ObjectIDFromHex_ok_iff (s : String) :
    (ObjectIDFromHex s).2 = none ↔ wellFormedID s = true := by
  unfold wellFormedID
  simp only [Bool.and_eq_true, beq_iff_eq]
  rcases ObjectIDFromHex_cases s with ⟨b, h, hd, hs⟩ | ⟨hno, hs⟩
  · have hl := hexDecode_length _ _ hd
    rw [hs]
    exact ⟨fun _ => ⟨by omega, hl.2⟩, fun _ => rfl⟩
  · rw [hs]
    refine ⟨fun h => (by cases h), fun h => ?_⟩
    exfalso
    obtain ⟨b, hb⟩ := hexDecode_of_wellFormed s.toList (by omega) h.2
    have hl := (hexDecode_length _ _ hb).1
    exact hno b hb (by omega)

theorem ObjectIDFromHex_malformed (s : String) (h : wellFormedID s = false) :
    ObjectIDFromHex s = (NilObjectID, some Error.ErrInvalidHex) := by
  rcases ObjectIDFromHex_cases s with ⟨b, hb, hd, hs⟩ | ⟨_, hs⟩
  · have := (ObjectIDFromHex_ok_iff s).mp (by rw [hs])
    rw [h] at this
    cases this
  · exact hs
/-! ## Lemmas on documents and the driver model -/

theorem oidOf_marshal (t : Travel) : oidOf t.marshal = some t.ObjectID := by
  simp [oidOf, Travel.marshal, List.lookup]

theorem matchesID_marshal (id : ObjectID) (t : Travel) :
    matchesID id t.marshal = decide (t.ObjectID = id) := by
  simp [matchesID, oidOf_marshal]

theorem Decode_marshal (t : Travel) : Decode t.marshal = Except.ok t := by
  simp [Decode, Travel.marshal, List.lookup]

theorem matchesID_iff (id : ObjectID) (doc : D) : matchesID id doc = true ↔ oidOf doc = some id := by
  simp [matchesID]

theorem any_matchesID_iff (id : ObjectID) (docs : List D) :
    docs.any (matchesID id) = true ↔ id ∈ docs.filterMap oidOf := by
  simp only [List.any_eq_true, List.mem_filterMap, matchesID_iff]

theorem find?_split (p : D → Bool) (l : List D) (h : l.any p = true) :
    ∃ pre doc post, l = pre ++ doc :: post ∧ p doc = true ∧ (∀ x ∈ pre, p x = false) := by
  induction l with
  | nil => simp at h
  | cons a l ih =>
    by_cases ha : p a = true
    · exact ⟨[], a, l, rfl, ha, by simp⟩
    · have hl : l.any p = true := by simpa [ha] using h
      obtain ⟨pre, doc, post, e, hd, hpre⟩ := ih hl
      refine ⟨a :: pre, doc, post, by simp [e], hd, ?_⟩
      intro x hx
      rcases List.mem_cons.mp hx with rfl | hx
      · simpa using ha
      · exact hpre x hx

theorem find?_of_split (p : D → Bool) (pre post : List D) (doc : D)
    (hpre : ∀ x ∈ pre, p x = false) (hd : p doc = true) :
    (pre ++ doc :: post).find? p = some doc := by
  induction pre with
  | nil => simp [List.find?, hd]
  | cons a pre ih =>
    have ha : p a = false := hpre a (by simp)
    simp only [List.cons_append, List.find?, ha]
    exact ih (fun x hx => hpre x (by simp [hx]))

theorem replaceFirst_of_split (p : D → Bool) (new : D) (pre post : List D) (doc : D)
    (hpre : ∀ x ∈ pre, p x = false) (hd : p doc = true) :
    replaceFirst p new (pre ++ doc :: post) = pre ++ new :: post := by
  induction pre with
  | nil => simp [replaceFirst, hd]
  | cons a pre ih =>
    have ha : p a = false := hpre a (by simp)
    have e := ih (fun x hx => hpre x (by simp [hx]))
    simp [replaceFirst, ha, e]

theorem eraseP_of_split (p : D → Bool) (pre post : List D) (doc : D)
    (hpre : ∀ x ∈ pre, p x = false) (hd : p doc = true) :
    (pre ++ doc :: post).eraseP p = pre ++ post := by
  induction pre with
  | nil => simp [List.eraseP, hd]
  | cons a pre ih =>
    have ha : p a = false := hpre a (by simp)
    have e := ih (fun x hx => hpre x (by simp [hx]))
    simp [ha, e]

theorem eraseP_of_none (p : D → Bool) (l : List D) (h : l.any p = false) : l.eraseP p = l := by
  apply List.eraseP_of_forall_not
  intro a ha hp
  have : l.any p = true := List.any_eq_true.mpr ⟨a, ha, hp⟩
  rw [h] at this
  cases this

theorem find?_of_none (p : D → Bool) (l : List D) (h : l.any p = false) : l.find? p = none := by
  rw [List.find?_eq_none]
  intro a ha hp
  have : l.any p = true := List.any_eq_true.mpr ⟨a, ha, hp⟩
  rw [h] at this
  cases this

theorem hasDollarKey_marshal (t : Travel) : hasDollarKey t.marshal = false := by
  simp [hasDollarKey, Travel.marshal]

theorem findAll_loop_eq (docs : List D) (ts acc : Travels)
    (h : List.Forall₂ (fun doc t => Decode doc = Except.ok t) docs ts) :
    findAll.loop docs acc = Except.ok (acc ++ ts) := by
  induction h generalizing acc with
  | nil => simp [findAll.loop]
  | cons hd _ ih => simp [findAll.loop, hd, ih]

/-! ## Lemmas on the repository methods -/

theorem ObjectIDFromHex_wellFormed (s : String) (h : wellFormedID s = true) :
    ObjectIDFromHex s = ((ObjectIDFromHex s).1, none) := by
  have h2 := (ObjectIDFromHex_ok_iff s).mpr h
  exact Prod.ext rfl h2

theorem insertOne_eq (d : DBRepository) (newObjectID : ObjectID) (fault : Option String)
    (travel : Travel) :
    insertOne d newObjectID fault travel =
      match fault with
      | some msg =>
        (some (Error.transport msg), ⟨newObjectID, travel.fields⟩,
          ⟨d.col.sent Command.insert⟩)
      | none =>
        if d.col.hasID newObjectID = true then
          (some Error.duplicateKey, ⟨newObjectID, travel.fields⟩, ⟨d.col.sent Command.insert⟩)
        else
          (none, ⟨newObjectID, travel.fields⟩,
            ⟨⟨d.col.docs ++ [Travel.marshal ⟨newObjectID, travel.fields⟩],
              d.col.wire ++ [Command.insert]⟩⟩) := by
  cases fault with
  | some msg => rfl
  | none =>
    by_cases h : d.col.docs.any (matchesID newObjectID) = true
    · simp [insertOne, Collection.InsertOne, Collection.hasID, h]
    · simp [insertOne, Collection.InsertOne, Collection.hasID, h]

theorem insertOne_ok (d : DBRepository) (newObjectID : ObjectID) (fault : Option String)
    (travel : Travel) (h : (insertOne d newObjectID fault travel).1 = none) :
    d.col.hasID newObjectID = false ∧
      insertOne d newObjectID fault travel =
        (none, ⟨newObjectID, travel.fields⟩,
          ⟨⟨d.col.docs ++ [Travel.marshal ⟨newObjectID, travel.fields⟩],
            d.col.wire ++ [Command.insert]⟩⟩) := by
  rw [insertOne_eq] at h ⊢
  cases fault with
  | some msg => simp at h
  | none =>
    by_cases hh : d.col.hasID newObjectID = true
    · simp [hh] at h
    · simp [hh]

theorem findOne_eq (d : DBRepository) (id : String) (h : wellFormedID id = true) :
    findOne d none id =
      match d.col.docs.find? (matchesID (ObjectIDFromHex id).1) with
      | some doc =>
        (match Decode doc with
          | Except.error err => Except.error err
          | Except.ok travel => Except.ok travel, ⟨d.col.sent Command.find⟩)
      | none => (Except.error Error.ErrNoDocuments, ⟨d.col.sent Command.find⟩) := by
  unfold findOne
  rw [ObjectIDFromHex_wellFormed id h]
  simp only [Collection.FindOne]
  cases hf : d.col.docs.find? (matchesID (ObjectIDFromHex id).1) with
  | none => rfl
  | some doc =>
    simp only [SingleResult.Decode]
    cases Decode doc <;> rfl

theorem replaceFirst_of_none (p : D → Bool) (new : D) (l : List D) (h : l.any p = false) :
    replaceFirst p new l = l := by
  induction l with
  | nil => rfl
  | cons a l ih =>
    simp only [List.any_cons, Bool.or_eq_false_iff] at h
    simp [replaceFirst, h.1, ih h.2]

theorem ReplaceOne_marshal (col : Collection) (t : Travel) :
    col.ReplaceOne none t.ObjectID t.marshal =
      (Except.ok ⟨if col.docs.any (matchesID t.ObjectID) then 1 else 0⟩,
        ⟨replaceFirst (matchesID t.ObjectID) t.marshal col.docs,
          col.wire ++ [Command.update]⟩) := by
  unfold Collection.ReplaceOne
  rw [hasDollarKey_marshal]
  by_cases h : col.docs.any (matchesID t.ObjectID) = true
  · simp [h, Travel.marshal, List.lookup]
  · have h2 : col.docs.any (matchesID t.ObjectID) = false := by simpa using h
    simp only [Bool.false_eq_true, if_false, h2, replaceFirst_of_none _ _ _ h2, Collection.sent]

theorem updateOne_eq (d : DBRepository) (id : String) (travel : Travel) :
    updateOne d none id travel =
      (none, ⟨(ObjectIDFromHex id).1, travel.fields⟩,
        ⟨⟨replaceFirst (matchesID (ObjectIDFromHex id).1)
            (Travel.marshal ⟨(ObjectIDFromHex id).1, travel.fields⟩) d.col.docs,
          d.col.wire ++ [Command.update]⟩⟩) := by
  unfold updateOne
  have e := ReplaceOne_marshal d.col ⟨(ObjectIDFromHex id).1, travel.fields⟩
  simp only at e ⊢
  rw [e]

theorem updateOne_fault (d : DBRepository) (msg : String) (id : String) (travel : Travel) :
    updateOne d (some msg) id travel =
      (some (Error.transport msg), ⟨(ObjectIDFromHex id).1, travel.fields⟩,
        ⟨d.col.sent Command.update⟩) := by
  unfold updateOne
  simp only [Collection.ReplaceOne, hasDollarKey_marshal, Bool.false_eq_true, if_false]

theorem updateField_eq (d : DBRepository) (fault : Option String) (id field : String)
    (value : Value) : updateField d fault id field value = (some Error.dollarKey, d) := by
  have h : hasDollarKey [("$set", Value.document [(field, value)])] = true := rfl
  simp only [updateField, Collection.ReplaceOne, h, if_true]

theorem deleteOne_eq (d : DBRepository) (id : String) (h : wellFormedID id = true) :
    deleteOne d none id =
      (none, ⟨⟨d.col.docs.eraseP (matchesID (ObjectIDFromHex id).1),
        d.col.wire ++ [Command.delete]⟩⟩) := by
  unfold deleteOne
  rw [ObjectIDFromHex_wellFormed id h]
  simp only [Collection.DeleteOne]

theorem deleteOne_ok (d : DBRepository) (fault : Option String) (id : String)
    (h : wellFormedID id = true) (hs : (deleteOne d fault id).1 = none) : fault = none := by
  cases fault with
  | none => rfl
  | some msg =>
    unfold deleteOne at hs
    rw [ObjectIDFromHex_wellFormed id h] at hs
    simp [Collection.DeleteOne] at hs

theorem not_mem_eraseP_of_nodup (docs : List D) (id : ObjectID)
    (hu : (docs.filterMap oidOf).Nodup) :
    (docs.eraseP (matchesID id)).any (matchesID id) = false := by
  by_cases h : docs.any (matchesID id) = true
  · obtain ⟨pre, doc, post, e, hd, hpre⟩ := find?_split _ _ h
    rw [e, eraseP_of_split _ _ _ _ hpre hd]
    rw [e] at hu
    have hdoc : oidOf doc = some id := (matchesID_iff id doc).mp hd
    simp only [List.filterMap_append, List.filterMap_cons, hdoc] at hu
    have hnd := List.nodup_append.mp hu
    have hpost : id ∉ post.filterMap oidOf := (List.nodup_cons.mp hnd.2.1).1
    have hpre2 : id ∉ pre.filterMap oidOf := by
      intro hm
      exact hnd.2.2 hm (List.mem_cons_self _ _)
    have : id ∉ (pre ++ post).filterMap oidOf := by
      simp only [List.filterMap_append, List.mem_append, not_or]
      exact ⟨hpre2, hpost⟩
    rw [← any_matchesID_iff] at this
    simpa using this
  · have h2 : docs.any (matchesID id) = false := by simpa using h
    rw [eraseP_of_none _ _ h2]
    exact h2

theorem wellFormedID_Hex (id : ObjectID) : wellFormedID id.Hex = true := by
  rw [← ObjectIDFromHex_ok_iff, ObjectIDFromHex_Hex]

theorem UniqueIDs_updateOne (d : DBRepository) (fault : Option String) (id : String)
    (travel : Travel) (hu : UniqueIDs d.col) :
    UniqueIDs (updateOne d fault id travel).2.2.col := by
  cases fault with
  | some msg => rw [updateOne_fault]; exact hu
  | none =>
    rw [updateOne_eq]
    unfold UniqueIDs at hu ⊢
    simp only
    by_cases h : d.col.docs.any (matchesID (ObjectIDFromHex id).1) = true
    · obtain ⟨pre, doc, post, e, hd, hpre⟩ := find?_split _ _ h
      rw [e, replaceFirst_of_split _ _ _ _ _ hpre hd]
      rw [e] at hu
      have hdoc : oidOf doc = some (ObjectIDFromHex id).1 := (matchesID_iff _ doc).mp hd
      simpa only [List.filterMap_append, List.filterMap_cons, hdoc, oidOf_marshal] using hu
    · have h2 : d.col.docs.any (matchesID (ObjectIDFromHex id).1) = false := by simpa using h
      rw [replaceFirst_of_none _ _ _ h2]
      exact hu

theorem UniqueIDs_deleteOne (d : DBRepository) (fault : Option String) (id : String)
    (hu : UniqueIDs d.col) : UniqueIDs (deleteOne d fault id).2.col := by
  unfold deleteOne
  rcases ObjectIDFromHex_cases id with ⟨b, hb, _, hs⟩ | ⟨_, hs⟩
  · rw [hs]
    cases fault with
    | some msg => exact hu
    | none =>
      simp only [Collection.DeleteOne]
      unfold UniqueIDs at hu ⊢
      exact hu.sublist ((List.eraseP_sublist _).filterMap oidOf)
  · rw [hs]
    exact hu

/-! ## Lemmas on the id generator -/

/-- C1: insert/get round trip.  When `insertOne` succeeds, the id it assigned to
the caller's record is the generated one, and `findOne` on the resulting
collection with the hexadecimal form of that id returns the input record with
that id and the same domain fields. -/
theorem insertOne_findOne_roundtrip (d : DBRepository) (newObjectID : ObjectID)
    (fault : Option String) (r : Travel)
    (h : (insertOne d newObjectID fault r).1 = none) :
    (insertOne d newObjectID fault r).2.1.ObjectID = newObjectID ∧
      (findOne (insertOne d newObjectID fault r).2.2 none
          (insertOne d newObjectID fault r).2.1.ObjectID.Hex).1 =
        Except.ok ⟨newObjectID, r.fields⟩ := by
  obtain ⟨hno, e⟩ := insertOne_ok d newObjectID fault r h
  rw [e]
  refine ⟨rfl, ?_⟩
  simp only
  rw [findOne_eq _ _ (wellFormedID_Hex newObjectID), ObjectIDFromHex_Hex]
  have hpre : ∀ x ∈ d.col.docs, matchesID newObjectID x = false := by
    intro x hx
    cases hm : matchesID newObjectID x with
    | false => rfl
    | true =>
      have : d.col.docs.any (matchesID newObjectID) = true := List.any_eq_true.mpr ⟨x, hx, hm⟩
      rw [Collection.hasID] at hno
      rw [hno] at this
      cases this
  have hd : matchesID newObjectID (Travel.marshal ⟨newObjectID, r.fields⟩) = true := by
    rw [matchesID_marshal]; simp
  simp only [find?_of_split _ _ [] _ hpre hd, Decode_marshal]

/-- C7: `findOne` with an id that is not a well-formed storage identifier
returns the parse error and leaves the handle as it was, whatever the
collection holds and whatever the transport would have done: no command is
sent. -/
theorem findOne_malformed_id (d : DBRepository) (fault : Option String) (id : String)
    (h : wellFormedID id = false) :
    findOne d fault id = (Except.error Error.ErrInvalidHex, d) := by
  unfold findOne
  rw [ObjectIDFromHex_malformed id h]

/-- C8: `findOne` with a well-formed id that no record carries fails with
`ErrNoDocuments` (the spec's `NotFoundError`); in particular, in a collection
with unique ids, it does so after a successful `deleteOne` of that id. -/
theorem findOne_absent_id (d : DBRepository) (id : String) (h : wellFormedID id = true) :
    (d.col.hasID (ObjectIDFromHex id).1 = false →
        (findOne d none id).1 = Except.error Error.ErrNoDocuments) ∧
      (∀ fault, UniqueIDs d.col → (deleteOne d fault id).1 = none →
        (findOne (deleteOne d fault id).2 none id).1 = Except.error Error.ErrNoDocuments) := by
  constructor
  · intro habs
    rw [findOne_eq d id h, find?_of_none _ _ habs]
  · intro fault hu hs
    have hf := deleteOne_ok d fault id h hs
    subst hf
    rw [deleteOne_eq d id h, findOne_eq _ id h]
    simp only
    rw [find?_of_none _ _ (not_mem_eraseP_of_nodup _ _ hu)]

/-- C9: `deleteOne` with a well-formed id, when the round trip completes,
returns no error whether or not a record matches.  With no matching record the
documents are unchanged; with one, exactly the first matching document is
removed and every other document stays in place. -/
theorem deleteOne_frame (d : DBRepository) (id : String) (h : wellFormedID id = true) :
    (deleteOne d none id).1 = none ∧
      (d.col.hasID (ObjectIDFromHex id).1 = false →
        (deleteOne d none id).2.col.docs = d.col.docs) ∧
      (d.col.hasID (ObjectIDFromHex id).1 = true →
        ∃ pre doc post, d.col.docs = pre ++ doc :: post ∧
          matchesID (ObjectIDFromHex id).1 doc = true ∧
          (∀ x ∈ pre, matchesID (ObjectIDFromHex id).1 x = false) ∧
          (deleteOne d none id).2.col.docs = pre ++ post) := by
  rw [deleteOne_eq d id h]
  refine ⟨rfl, ?_, ?_⟩
  · intro habs
    exact eraseP_of_none _ _ habs
  · intro hex
    obtain ⟨pre, doc, post, e, hd, hpre⟩ := find?_split _ _ hex
    refine ⟨pre, doc, post, e, hd, hpre, ?_⟩
    simp only
    rw [e, eraseP_of_split _ _ _ _ hpre hd]

/-- C6: replace/get round trip.  When the collection holds a record with the
well-formed id `X` and `updateOne` succeeds, `findOne` with `X` returns the new
content under the id `X` (whatever id the new content carried), and the stored
documents are the old ones with the first record of id `X` replaced in place. -/
theorem updateOne_findOne_roundtrip (d : DBRepository) (fault : Option String) (X : String)
    (C : Travel) (hX : wellFormedID X = true)
    (hex : d.col.hasID (ObjectIDFromHex X).1 = true)
    (hs : (updateOne d fault X C).1 = none) :
    (findOne (updateOne d fault X C).2.2 none X).1 =
        Except.ok ⟨(ObjectIDFromHex X).1, C.fields⟩ ∧
      ∃ pre old post, d.col.docs = pre ++ old :: post ∧
        matchesID (ObjectIDFromHex X).1 old = true ∧
        (∀ x ∈ pre, matchesID (ObjectIDFromHex X).1 x = false) ∧
        (updateOne d fault X C).2.2.col.docs =
          pre ++ Travel.marshal ⟨(ObjectIDFromHex X).1, C.fields⟩ :: post := by
  cases fault with
  | some msg => rw [updateOne_fault] at hs; cases hs
  | none =>
    obtain ⟨pre, old, post, e, hd, hpre⟩ := find?_split _ _ hex
    have hnew : matchesID (ObjectIDFromHex X).1
        (Travel.marshal ⟨(ObjectIDFromHex X).1, C.fields⟩) = true := by
      rw [matchesID_marshal]; simp
    have hdocs : (updateOne d none X C).2.2.col.docs =
        pre ++ Travel.marshal ⟨(ObjectIDFromHex X).1, C.fields⟩ :: post := by
      rw [updateOne_eq]
      simp only
      rw [e, replaceFirst_of_split _ _ _ _ _ hpre hd]
    refine ⟨?_, pre, old, post, e, hd, hpre, hdocs⟩
    rw [findOne_eq _ X hX, hdocs, find?_of_split _ _ _ _ hpre hnew]
    simp only [Decode_marshal]

/-- C10: `findAll` on an empty collection returns an empty sequence and no
error; and when neither `Find` nor `Close` meets a transport fault and every
stored document decodes, it returns the decoded records, one per stored
document, in storage order; for a collection of stored `Travel` records these
are exactly the records. -/
theorem findAll_lists_collection :
    (∀ wire, (findAll ⟨⟨[], wire⟩⟩ none none).1 = Except.ok []) ∧
      (∀ (d : DBRepository) (ts : Travels),
        List.Forall₂ (fun doc t => Decode doc = Except.ok t) d.col.docs ts →
          (findAll d none none).1 = Except.ok ts) ∧
      (∀ (ts : Travels) wire,
        (findAll ⟨⟨ts.map Travel.marshal, wire⟩⟩ none none).1 = Except.ok ts) := by
  have key : ∀ (d : DBRepository) (ts : Travels),
      List.Forall₂ (fun doc t => Decode doc = Except.ok t) d.col.docs ts →
        (findAll d none none).1 = Except.ok ts := by
    intro d ts hall
    have e := findAll_loop_eq d.col.docs ts [] hall
    simp only [findAll, Collection.Find, e, Cursor.Close, List.nil_append]
  refine ⟨fun wire => key _ [] List.Forall₂.nil, key, ?_⟩
  intro ts wire
  apply key
  simp only
  induction ts with
  | nil => exact List.Forall₂.nil
  | cons t ts ih => exact List.Forall₂.cons (Decode_marshal t) ih

/-- C3: evaluation at a malformed id.  `updateOne` with the id `"xyz"` returns no
error and sends an update command filtered on the zero id, which replaces a
record stored under the zero id; `updateField` with the same id returns the
driver's dollar-key error, not the parse error. -/
theorem updateOne_updateField_malformed_id :
    wellFormedID "xyz" = false ∧
      (updateOne emptyRepo none "xyz" lima).1 = none ∧
      (updateOne emptyRepo none "xyz" lima).2.2.col.wire = [Command.update] ∧
      (updateOne nilRepo none "xyz" cusco).1 = none ∧
      (updateOne nilRepo none "xyz" cusco).2.2.col.docs =
        [Travel.marshal ⟨NilObjectID, cusco.fields⟩] ∧
      (updateField emptyRepo none "xyz" "destination" (Value.str "Cusco")).1 =
        some Error.dollarKey :=
  ⟨by decide, by decide, by decide, by decide, rfl, rfl⟩

/-- C4: `updateField` never sets a field.  Every call returns the driver's
dollar-key error and leaves the handle as it was, because the `$set` document
is handed to `ReplaceOne`; in the scenario of the spec the record read back
after `updateField(A, "destination", "Cusco")` still has destination Lima. -/
theorem updateField_always_fails :
    (∀ (d : DBRepository) (fault : Option String) (id field : String) (value : Value),
        updateField d fault id field value = (some Error.dollarKey, d)) ∧
      limaRepo.col.hasID oidA = true ∧
      (updateField limaRepo none oidA.Hex "destination" (Value.str "Cusco")).1 =
        some Error.dollarKey ∧
      (findOne (updateField limaRepo none oidA.Hex "destination" (Value.str "Cusco")).2
          none oidA.Hex).1 = Except.ok ⟨oidA, [("destination", Value.str "Lima")]⟩ :=
  ⟨updateField_eq, by decide, rfl, rfl⟩

/-- C5, as stated, fails: on the empty collection `updateOne` with the
well-formed id `A` reports success, not an error. -/
theorem updateOne_absent_id_succeeds :
    wellFormedID oidA.Hex = true ∧
      emptyRepo.col.hasID (ObjectIDFromHex oidA.Hex).1 = false ∧
      (updateOne emptyRepo none oidA.Hex lima).1 = none ∧
      ¬ ∃ err, (updateOne emptyRepo none oidA.Hex lima).1 = some err :=
  ⟨by decide, by decide, by decide, fun ⟨err, h⟩ => by
    have hn : (updateOne emptyRepo none oidA.Hex lima).1 = none := by decide
    rw [hn] at h
    cases h⟩

/-- C5, amended: for a well-formed id `X` that matches no record, `updateOne`,
when the round trip completes, reports success and leaves the stored documents
unchanged; the match count is not inspected, so it reports success on every
collection, matched or not. -/
theorem updateOne_absent_id_unchanged (d : DBRepository) (X : String) (record : Travel)
    (_hX : wellFormedID X = true) (habs : d.col.hasID (ObjectIDFromHex X).1 = false) :
    (updateOne d none X record).1 = none ∧
      (updateOne d none X record).2.2.col.docs = d.col.docs ∧
      ∀ d2 : DBRepository, (updateOne d2 none X record).1 = none := by
  refine ⟨by rw [updateOne_eq], ?_, fun d2 => by rw [updateOne_eq]⟩
  rw [updateOne_eq]
  exact replaceFirst_of_none _ _ _ habs

/-! ## The claims at concrete inputs -/

theorem insertOne_findOne_roundtrip_witness :
    (insertOne emptyRepo oidA none lima).1 = none ∧
      (insertOne emptyRepo oidA none lima).2.1.ObjectID = oidA ∧
      (findOne (insertOne emptyRepo oidA none lima).2.2 none
          (insertOne emptyRepo oidA none lima).2.1.ObjectID.Hex).1 =
        Except.ok ⟨oidA, lima.fields⟩ :=
  ⟨by decide, insertOne_findOne_roundtrip emptyRepo oidA none lima (by decide)⟩

theorem findOne_malformed_id_witness :
    wellFormedID "xyz" = false ∧
      findOne limaRepo none "xyz" = (Except.error Error.ErrInvalidHex, limaRepo) :=
  ⟨by decide, findOne_malformed_id limaRepo none "xyz" (by decide)⟩

theorem findOne_absent_id_witness :
    wellFormedID oidA.Hex = true ∧
      (findOne emptyRepo none oidA.Hex).1 = Except.error Error.ErrNoDocuments ∧
      (deleteOne limaRepo none oidA.Hex).1 = none ∧
      (findOne (deleteOne limaRepo none oidA.Hex).2 none oidA.Hex).1 =
        Except.error Error.ErrNoDocuments :=
  ⟨by decide,
    (findOne_absent_id emptyRepo oidA.Hex (by decide)).1 (by decide),
    by decide,
    (findOne_absent_id limaRepo oidA.Hex (by decide)).2 none (by decide) (by decide)⟩

theorem deleteOne_frame_witness :
    wellFormedID oidA.Hex = true ∧
      twoRepo.col.hasID (ObjectIDFromHex oidA.Hex).1 = true ∧
      (deleteOne twoRepo none oidA.Hex).1 = none ∧
      ∃ pre doc post, twoRepo.col.docs = pre ++ doc :: post ∧
        matchesID (ObjectIDFromHex oidA.Hex).1 doc = true ∧
        (∀ x ∈ pre, matchesID (ObjectIDFromHex oidA.Hex).1 x = false) ∧
        (deleteOne twoRepo none oidA.Hex).2.col.docs = pre ++ post :=
  ⟨by decide, by decide, (deleteOne_frame twoRepo oidA.Hex (by decide)).1,
    (deleteOne_frame twoRepo oidA.Hex (by decide)).2.2 (by decide)⟩

theorem updateOne_findOne_roundtrip_witness :
    wellFormedID oidA.Hex = true ∧
      twoRepo.col.hasID (ObjectIDFromHex oidA.Hex).1 = true ∧
      (updateOne twoRepo none oidA.Hex cusco).1 = none ∧
      (findOne (updateOne twoRepo none oidA.Hex cusco).2.2 none oidA.Hex).1 =
        Except.ok ⟨(ObjectIDFromHex oidA.Hex).1, cusco.fields⟩ :=
  ⟨by decide, by decide, by decide,
    (updateOne_findOne_roundtrip twoRepo none oidA.Hex cusco (by decide) (by decide)
      (by decide)).1⟩

theorem findAll_lists_collection_witness :
    (findAll twoRepo none none).1 = Except.ok [⟨oidA, lima.fields⟩, ⟨oidB, cusco.fields⟩] :=
  findAll_lists_collection.2.1 twoRepo _
    (List.Forall₂.cons rfl (List.Forall₂.cons rfl List.Forall₂.nil))

theorem updateOne_absent_id_unchanged_witness :
    wellFormedID oidB.Hex = true ∧
      limaRepo.col.hasID (ObjectIDFromHex oidB.Hex).1 = false ∧
      (updateOne limaRepo none oidB.Hex cusco).1 = none ∧
      (updateOne limaRepo none oidB.Hex cusco).2.2.col.docs = limaRepo.col.docs :=
  ⟨by decide, by decide,
    (updateOne_absent_id_unchanged limaRepo oidB.Hex cusco (by decide) (by decide)).1,
    (updateOne_absent_id_unchanged limaRepo oidB.Hex cusco (by decide) (by decide)).2.1⟩

end TravelList
